import Mathlib

/-!
# Verification of the `gdpService` transform layer

Shallow embedding of `src/services/gdpService.ts` (the data-transformation
layer of the county-GDP dashboard) and proofs of the specified properties.

Modelling conventions:

* JavaScript numbers are modelled by `JsNum`: a finite value (idealized to an
  exact rational, so binary rounding and overflow of doubles are not modelled;
  `-0` is identified with `0`) or one of the special values `Infinity`,
  `-Infinity`, `NaN`.  The arithmetic on `JsNum` follows the IEEE-754 rules
  JavaScript uses for these special values.
* Raw numeric fields of the static dataset (`gdp.year2023`, `gdp.year2022`,
  `perCapitaGDP`, filter bounds) are finite number literals, so they are
  embedded as `ℚ`; the derived `growthRate` is the result of JavaScript
  arithmetic and is embedded as `JsNum`.
* The prefecture mapping lives in a data module (`../data/prefectureMap`)
  outside the service file; functions that use it take the mapping as an
  explicit `String → Option String` parameter, where `none` models a key
  absent from the object (`prefectureMap[k] === undefined`).
* `Array.prototype.sort` with a consistent comparator is mandated (ES2019+) to
  produce the stable sort by that comparator; it is embedded as a stable
  insertion sort.  The engine coerces a NaN comparator result to `+0`
  (`SortCompare`), modelled by `toSortSign`.
* `String.prototype.localeCompare` on the ASCII county codes is idealized to
  code-point lexicographic comparison (Lean's `String` order).
* `Number.prototype.toFixed(2)` is idealized to exact rational rounding
  (round half away from zero) rendered with two decimals.
-/

/-- A JavaScript number: a finite value (idealized to `ℚ`) or a special
IEEE-754 value. -/
inductive JsNum where
  | finite (q : ℚ)
  | inf
  | negInf
  | nan
deriving DecidableEq

namespace JsNum

/-- JavaScript subtraction `a - b` on the special-value lattice. -/
def sub : JsNum → JsNum → JsNum
  | nan, _ => nan
  | _, nan => nan
  | finite x, finite y => finite (x - y)
  | inf, inf => nan
  | negInf, negInf => nan
  | inf, _ => inf
  | negInf, _ => negInf
  | finite _, inf => negInf
  | finite _, negInf => inf

/-- JavaScript division `a / b` (division of a finite value by `0` yields
`NaN` or `±Infinity` depending on the numerator's sign; `-0` is not
modelled, so a zero divisor counts as `+0`). -/
def div : JsNum → JsNum → JsNum
  | nan, _ => nan
  | _, nan => nan
  | finite x, finite y =>
      if y = 0 then (if x = 0 then nan else if 0 < x then inf else negInf)
      else finite (x / y)
  | finite _, inf => finite 0
  | finite _, negInf => finite 0
  | inf, finite y => if y < 0 then negInf else inf
  | negInf, finite y => if y < 0 then inf else negInf
  | inf, inf => nan
  | inf, negInf => nan
  | negInf, inf => nan
  | negInf, negInf => nan

/-- JavaScript multiplication `a * b`. -/
def mul : JsNum → JsNum → JsNum
  | nan, _ => nan
  | _, nan => nan
  | finite x, finite y => finite (x * y)
  | inf, finite y => if y = 0 then nan else if 0 < y then inf else negInf
  | finite x, inf => if x = 0 then nan else if 0 < x then inf else negInf
  | negInf, finite y => if y = 0 then nan else if 0 < y then negInf else inf
  | finite x, negInf => if x = 0 then nan else if 0 < x then negInf else inf
  | inf, inf => inf
  | negInf, negInf => inf
  | inf, negInf => negInf
  | negInf, inf => negInf

/-- JavaScript truthiness of a number: `0`, `-0` and `NaN` are falsy, every
other number (including `±Infinity`) is truthy. -/
def truthy : JsNum → Bool
  | finite q => q ≠ 0
  | inf => true
  | negInf => true
  | nan => false

/-- The JavaScript idiom `x || 0`: returns `x` when truthy, else `0`. -/
def orZero (a : JsNum) : JsNum := if a.truthy then a else finite 0

/-- JavaScript `<`: false whenever either operand is `NaN`. -/
def ltB : JsNum → JsNum → Bool
  | nan, _ => false
  | _, nan => false
  | finite x, finite y => decide (x < y)
  | finite _, inf => true
  | finite _, negInf => false
  | inf, _ => false
  | negInf, negInf => false
  | negInf, _ => true

/-- JavaScript `<=`: false whenever either operand is `NaN`, otherwise the
negation of `>`. -/
def leB : JsNum → JsNum → Bool
  | nan, _ => false
  | _, nan => false
  | a, b => !(ltB b a)

/-- Whether the value is finite (not `NaN`, not `±Infinity`). -/
def isFin : JsNum → Bool
  | finite _ => true
  | _ => false

end JsNum

/-- The two-year GDP pair of a county record (finite dataset literals). -/
structure Gdp where
  year2023 : ℚ
  year2022 : ℚ
deriving DecidableEq

/-- A raw county record from the static dataset (`CountyGDP`). -/
structure CountyGDP where
  code : String
  name : String
  prefecture : String
  rank : ℕ
  gdp : Gdp
  perCapitaGDP : ℚ
deriving DecidableEq

/-- A county record extended with the derived display fields
(`FormattedCountyGDP`). -/
structure FormattedCountyGDP extends CountyGDP where
  growthRate : JsNum
  growthRateFormatted : String
  regionRank : String
  gdpUnit : String
deriving DecidableEq

/-- The four sort keys (`SortType`). -/
inductive SortType where
  | gdp2023
  | gdp2022
  | growthRate
  | perCapitaGDP
deriving DecidableEq

/-- Sort direction (`SortDirection`). -/
inductive SortDirection where
  | asc
  | desc
deriving DecidableEq

/-- The conjunctive filter spec (`FilterOptions`); `none` models an
`undefined` (unset) field. -/
structure FilterOptions where
  prefecture : Option String := none
  growthRateMin : Option ℚ := none
  growthRateMax : Option ℚ := none
  gdpMin : Option ℚ := none
deriving DecidableEq

/-- `calculateGrowthRate`: `((gdp.year2023 - gdp.year2022) / gdp.year2022) * 100 || 0`. -/
def calculateGrowthRate (gdp : Gdp) : JsNum :=
  (JsNum.mul (JsNum.div (JsNum.sub (.finite gdp.year2023) (.finite gdp.year2022))
      (.finite gdp.year2022)) (.finite 100)).orZero

/-- `Number.prototype.toFixed(2)` on an exact rational, idealized to round
half away from zero. -/
def ratToFixed2 (q : ℚ) : String :=
  let n : ℤ := if 0 ≤ q then ⌊q * 100 + 1/2⌋ else -⌊-q * 100 + 1/2⌋
  let intPart := n.natAbs / 100
  let fracPart := n.natAbs % 100
  (if n < 0 then "-" else "") ++ toString intPart ++ "." ++
    (if fracPart < 10 then "0" else "") ++ toString fracPart

/-- `Number.prototype.toFixed(2)` on a `JsNum`. -/
def JsNum.toFixed2 : JsNum → String
  | .finite q => ratToFixed2 q
  | .inf => "Infinity"
  | .negInf => "-Infinity"
  | .nan => "NaN"

/-- JavaScript template-string rendering of an object lookup: a missing key
(`undefined`) renders as the literal text `"undefined"`. -/
def jsTemplateLookup (o : Option String) : String := o.getD "undefined"

/-- `formatCountyData`: extends a raw record with `growthRate`,
`growthRateFormatted`, `regionRank` (prefecture display name concatenated
with the rank) and the constant `gdpUnit`.  The prefecture mapping is passed
explicitly (it lives in a data module outside the service file). -/
def formatCountyData (prefectureMap : String → Option String)
    (county : CountyGDP) : FormattedCountyGDP :=
  let growthRate := calculateGrowthRate county.gdp
  { county with
    growthRate := growthRate
    growthRateFormatted := growthRate.toFixed2 ++ "%"
    regionRank := jsTemplateLookup (prefectureMap county.prefecture) ++ toString county.rank
    gdpUnit := "亿元" }

/-- The numeric field selected by a sort key (the comparator's
`valueA`/`valueB`; the `default` switch branch coincides with `gdp2023`). -/
def keyVal : SortType → FormattedCountyGDP → JsNum
  | .gdp2023, c => .finite c.gdp.year2023
  | .gdp2022, c => .finite c.gdp.year2022
  | .growthRate, c => c.growthRate
  | .perCapitaGDP, c => .finite c.perCapitaGDP

/-- Idealized `localeCompare` on county codes: code-point lexicographic
comparison reported as a sign. -/
def strCmpQ (s t : String) : ℚ :=
  if s < t then -1 else if t < s then 1 else 0

/-- How the sort engine reads a comparator result (`SortCompare`): only the
sign matters, and a `NaN` result is coerced to `+0`. -/
def toSortSign : JsNum → ℚ
  | .finite q => q
  | .inf => 1
  | .negInf => -1
  | .nan => 0

/-- The comparator passed to `sort`: primary compare `valueA - valueB`
(reversed for `desc`), and when that difference is strictly equal to `0`
(`primaryCompare === 0`, which `NaN` never is) the `code` tie-break
`a.code.localeCompare(b.code)`. -/
def sortCompareVal (sortBy : SortType) (direction : SortDirection)
    (a b : FormattedCountyGDP) : ℚ :=
  let vA := keyVal sortBy a
  let vB := keyVal sortBy b
  let primaryCompare := match direction with
    | .asc => JsNum.sub vA vB
    | .desc => JsNum.sub vB vA
  if primaryCompare = .finite 0 then strCmpQ a.code b.code
  else toSortSign primaryCompare

/-- The comparator as a `Bool`-valued "not after" relation. -/
def countyLe (sortBy : SortType) (direction : SortDirection)
    (a b : FormattedCountyGDP) : Bool :=
  decide (sortCompareVal sortBy direction a b ≤ 0)

/-- Insert into a sorted list: before the first element the new one is
`le`-below.  Together with `stableSort` this is the stable sort by `le`. -/
def stableInsert (le : α → α → Bool) (a : α) : List α → List α
  | [] => [a]
  | b :: l => if le a b then a :: b :: l else b :: stableInsert le a l

/-- Stable insertion sort; models `Array.prototype.sort` with a consistent
comparator (ES2019+ mandates the stable sort by the comparator order). -/
def stableSort (le : α → α → Bool) : List α → List α
  | [] => []
  | a :: l => stableInsert le a (stableSort le l)

/-- `sortCounties`: copies the array and sorts it with the key/direction
comparator with `code` tie-break.  The `console.log` tracing and the
duplicate check in the source do not affect the returned array. -/
def sortCounties (data : List FormattedCountyGDP)
    (sortBy : SortType := .gdp2023) (direction : SortDirection := .desc) :
    List FormattedCountyGDP :=
  stableSort (countyLe sortBy direction) data

/-- The prefecture guard of `filterCounties`:
`options.prefecture && county.prefecture !== options.prefecture`
(an unset or empty-string `prefecture` is falsy, imposing no constraint). -/
def prefectureBlocks (options : FilterOptions) (county : FormattedCountyGDP) : Bool :=
  match options.prefecture with
  | none => false
  | some p => !(p == "") && !(county.prefecture == p)

/-- The lower growth-rate guard of `filterCounties`:
`options.growthRateMin !== undefined && county.growthRate < options.growthRateMin`. -/
def growthRateMinBlocks (options : FilterOptions) (county : FormattedCountyGDP) : Bool :=
  match options.growthRateMin with
  | none => false
  | some m => JsNum.ltB county.growthRate (.finite m)

/-- The upper growth-rate guard of `filterCounties`:
`options.growthRateMax !== undefined && county.growthRate > options.growthRateMax`. -/
def growthRateMaxBlocks (options : FilterOptions) (county : FormattedCountyGDP) : Bool :=
  match options.growthRateMax with
  | none => false
  | some m => JsNum.ltB (.finite m) county.growthRate

/-- The GDP guard of `filterCounties`:
`options.gdpMin !== undefined && county.gdp.year2023 < options.gdpMin`. -/
def gdpMinBlocks (options : FilterOptions) (county : FormattedCountyGDP) : Bool :=
  match options.gdpMin with
  | none => false
  | some g => decide (county.gdp.year2023 < g)

/-- `filterCounties`: keeps the counties not rejected by any of the four
guards, preserving input order. -/
def filterCounties (data : List FormattedCountyGDP) (options : FilterOptions) :
    List FormattedCountyGDP :=
  data.filter fun county =>
    !(prefectureBlocks options county) &&
    !(growthRateMinBlocks options county) &&
    !(growthRateMaxBlocks options county) &&
    !(gdpMinBlocks options county)

/-- The statistics record returned by `getStatistics`. -/
structure Statistics where
  totalGDP2023 : ℚ
  totalGDP2022 : ℚ
  overallGrowthRate : JsNum
  avgPerCapitaGDP : JsNum
  positiveGrowthCount : ℕ
  negativeGrowthCount : ℕ
  totalCount : ℕ
deriving DecidableEq

/-- The `reduce` computing the 2023 GDP sum (finite dataset values, so the
sum stays finite). -/
def totalGDP2023Of (data : List FormattedCountyGDP) : ℚ :=
  data.foldl (fun sum county => sum + county.gdp.year2023) 0

/-- The `reduce` computing the 2022 GDP sum. -/
def totalGDP2022Of (data : List FormattedCountyGDP) : ℚ :=
  data.foldl (fun sum county => sum + county.gdp.year2022) 0

/-- The `reduce` computing the per-capita GDP sum. -/
def totalPerCapitaOf (data : List FormattedCountyGDP) : ℚ :=
  data.foldl (fun sum county => sum + county.perCapitaGDP) 0

/-- `getStatistics`: the six aggregates.  `overallGrowthRate` divides by the
raw 2022 sum with no zero guard, and `avgPerCapitaGDP` divides by
`data.length` with no empty guard — both follow JavaScript division
semantics. -/
def getStatistics (data : List FormattedCountyGDP) : Statistics :=
  { totalGDP2023 := totalGDP2023Of data
    totalGDP2022 := totalGDP2022Of data
    overallGrowthRate :=
      JsNum.mul (JsNum.div (JsNum.sub (.finite (totalGDP2023Of data))
        (.finite (totalGDP2022Of data))) (.finite (totalGDP2022Of data))) (.finite 100)
    avgPerCapitaGDP :=
      JsNum.div (.finite (totalPerCapitaOf data)) (.finite (data.length : ℚ))
    positiveGrowthCount :=
      (data.filter fun county => JsNum.ltB (.finite 0) county.growthRate).length
    negativeGrowthCount :=
      (data.filter fun county => JsNum.ltB county.growthRate (.finite 0)).length
    totalCount := data.length }

/-- The ordering the sorted output is claimed to satisfy between adjacent
elements: the chosen numeric field is non-decreasing (ascending) or
non-increasing (descending), and elements equal on that field are in
ascending lexicographic `code` order. -/
def fieldOrdered (sortBy : SortType) (direction : SortDirection)
    (a b : FormattedCountyGDP) : Prop :=
  (match direction with
    | .asc => JsNum.leB (keyVal sortBy a) (keyVal sortBy b) = true
    | .desc => JsNum.leB (keyVal sortBy b) (keyVal sortBy a) = true) ∧
  (keyVal sortBy a = keyVal sortBy b → a.code ≤ b.code)

/-- The filter predicate exactly as the specification words it: every
supplied field is a constraint — a supplied `prefecture` means equality,
even when it is the empty string. -/
def claimMatchesFilter (options : FilterOptions) (county : FormattedCountyGDP) : Bool :=
  (match options.prefecture with
    | none => true
    | some p => county.prefecture == p) &&
  (match options.growthRateMin with
    | none => true
    | some m => JsNum.leB (.finite m) county.growthRate) &&
  (match options.growthRateMax with
    | none => true
    | some m => JsNum.leB county.growthRate (.finite m)) &&
  (match options.gdpMin with
    | none => true
    | some g => decide (g ≤ county.gdp.year2023))

/-- The filter predicate of the specification amended by the empty-string
rule: a supplied empty-string `prefecture` imposes no constraint (it is
falsy), a supplied non-empty `prefecture` means equality; growth rate must
be ≥ the supplied minimum and ≤ the supplied maximum, and 2023 GDP ≥ the
supplied minimum. -/
def matchesFilterSpec (options : FilterOptions) (county : FormattedCountyGDP) : Bool :=
  (match options.prefecture with
    | none => true
    | some p => p == "" || county.prefecture == p) &&
  (match options.growthRateMin with
    | none => true
    | some m => JsNum.leB (.finite m) county.growthRate) &&
  (match options.growthRateMax with
    | none => true
    | some m => JsNum.leB county.growthRate (.finite m)) &&
  (match options.gdpMin with
    | none => true
    | some g => decide (g ≤ county.gdp.year2023))

/-- Test fixture: a formatted county with the given code and GDP pair, whose
`growthRate` is the one `formatCountyData` would derive. -/
def sampleCounty (code : String) (y23 y22 : ℚ) : FormattedCountyGDP :=
  { code := code, name := code, prefecture := "p", rank := 1, gdp := ⟨y23, y22⟩,
    perCapitaGDP := 1, growthRate := calculateGrowthRate ⟨y23, y22⟩,
    growthRateFormatted := "", regionRank := "", gdpUnit := "" }

/-- Test fixture: a prefecture mapping containing only the code `"p"`. -/
def pmapSample : String → Option String := fun s => if s = "p" then some "X市" else none

/-- Test fixture: raw county, code `"a"`, 2022 GDP zero (growth rate
`Infinity` after formatting). -/
def cexRawA : CountyGDP :=
  { code := "a", name := "甲县", prefecture := "p", rank := 1,
    gdp := ⟨1, 0⟩, perCapitaGDP := 1 }

/-- Test fixture: raw county, code `"b"`, 2022 GDP zero (growth rate
`Infinity` after formatting). -/
def cexRawB : CountyGDP :=
  { code := "b", name := "乙县", prefecture := "p", rank := 2,
    gdp := ⟨1, 0⟩, perCapitaGDP := 1 }

/-- Test fixture: `cexRawA` formatted. -/
def cexA : FormattedCountyGDP := formatCountyData pmapSample cexRawA

/-- Test fixture: `cexRawB` formatted. -/
def cexB : FormattedCountyGDP := formatCountyData pmapSample cexRawB

/-- Test fixture: a raw county whose prefecture code `"zz"` is absent from
the prefecture mapping. -/
def rawMissing : CountyGDP :=
  { code := "m", name := "名县", prefecture := "zz", rank := 3,
    gdp := ⟨10, 8⟩, perCapitaGDP := 2 }

/-! ## Generic lemmas about the stable insertion sort -/

theorem stableInsert_perm (le : α → α → Bool) (a : α) :
    ∀ l : List α, (stableInsert le a l).Perm (a :: l)
  | [] => List.Perm.refl _
  | b :: t => by
    unfold stableInsert
    by_cases h : le a b = true
    · simp [h]
    · simp only [h, if_neg, Bool.false_eq_true, if_false]
      exact ((stableInsert_perm le a t).cons b).trans (List.Perm.swap a b t)

theorem stableSort_perm (le : α → α → Bool) :
    ∀ l : List α, (stableSort le l).Perm l
  | [] => List.Perm.refl _
  | a :: l =>
    (stableInsert_perm le a (stableSort le l)).trans ((stableSort_perm le l).cons a)

theorem chain'_stableInsert {le : α → α → Bool}
    (total : ∀ x y, le x y = true ∨ le y x = true) (a : α) :
    ∀ l : List α, List.Chain' (fun x y => le x y = true) l →
      List.Chain' (fun x y => le x y = true) (stableInsert le a l)
  | [], _ => List.chain'_singleton a
  | b :: t, h => by
    unfold stableInsert
    by_cases hab : le a b = true
    · simp only [hab, if_true]
      exact List.chain'_cons.mpr ⟨hab, h⟩
    · have hba : le b a = true := (total a b).resolve_left hab
      simp only [hab, Bool.false_eq_true, if_false]
      have IH := chain'_stableInsert total a t h.tail
      cases t with
      | nil => exact List.chain'_cons.mpr ⟨hba, List.chain'_singleton a⟩
      | cons c t' =>
        unfold stableInsert at IH ⊢
        by_cases hac : le a c = true
        · simp only [hac, if_true] at IH ⊢
          exact List.chain'_cons.mpr ⟨hba, IH⟩
        · simp only [hac, Bool.false_eq_true, if_false] at IH ⊢
          exact List.chain'_cons.mpr ⟨(List.chain'_cons.mp h).1, IH⟩

theorem chain'_stableSort {le : α → α → Bool}
    (total : ∀ x y, le x y = true ∨ le y x = true) :
    ∀ l : List α, List.Chain' (fun x y => le x y = true) (stableSort le l)
  | [] => List.chain'_nil
  | a :: l => chain'_stableInsert total a _ (chain'_stableSort total l)

theorem chain'_imp_mem {R S : α → α → Prop} :
    ∀ {l : List α}, List.Chain' R l →
      (∀ x ∈ l, ∀ y ∈ l, R x y → S x y) → List.Chain' S l := by
  intro l
  induction l with
  | nil => intro _ _; exact List.chain'_nil
  | cons a t ih =>
    cases t with
    | nil => intro _ _; exact List.chain'_singleton a
    | cons b t' =>
      intro h himp
      rw [List.chain'_cons] at h ⊢
      refine ⟨himp a (by simp) b (by simp) h.1, ih h.2 ?_⟩
      intro x hx y hy
      exact himp x (List.mem_cons_of_mem a hx) y (List.mem_cons_of_mem a hy)

theorem chain_rel_all {R : α → α → Prop} {P : α → Prop}
    (htrans : ∀ x y z, P x → P y → P z → R x y → R y z → R x z) :
    ∀ {a : α} {t : List α}, P a → (∀ x ∈ t, P x) → List.Chain R a t →
      ∀ y ∈ t, R a y := by
  intro a t
  induction t generalizing a with
  | nil => simp
  | cons b t' ih =>
    intro hPa hPt hch y hy
    rw [List.chain_cons] at hch
    rcases List.mem_cons.mp hy with rfl | hy'
    · exact hch.1
    · have hPb : P b := hPt b (by simp)
      have hby : R b y := ih hPb (fun x hx => hPt x (List.mem_cons_of_mem b hx)) hch.2 y hy'
      exact htrans a b y hPa hPb (hPt y hy) hch.1 hby

theorem pairwise_of_chain' {R : α → α → Prop} {P : α → Prop}
    (htrans : ∀ x y z, P x → P y → P z → R x y → R y z → R x z) :
    ∀ {l : List α}, (∀ x ∈ l, P x) → List.Chain' R l → List.Pairwise R l := by
  intro l
  induction l with
  | nil => intro _ _; exact List.Pairwise.nil
  | cons a t ih =>
    intro hP hch
    have hPt : ∀ x ∈ t, P x := fun x hx => hP x (List.mem_cons_of_mem a hx)
    refine List.pairwise_cons.mpr ⟨?_, ih hPt hch.tail⟩
    exact chain_rel_all htrans (hP a (by simp)) hPt hch

theorem eq_of_perm_of_pairwise {R : α → α → Prop} :
    ∀ {l₁ l₂ : List α}, l₁.Perm l₂ →
      (∀ x ∈ l₁, ∀ y ∈ l₁, R x y → R y x → x = y) →
      List.Pairwise R l₁ → List.Pairwise R l₂ → l₁ = l₂ := by
  intro l₁
  induction l₁ with
  | nil => intro l₂ hp _ _ _; exact hp.nil_eq
  | cons a t ih =>
    intro l₂ hp hanti h₁ h₂
    cases l₂ with
    | nil => exact absurd hp.symm.nil_eq (by simp)
    | cons b t₂ =>
      have hab : a = b := by
        by_cases h : a = b
        · exact h
        · have hbmem : b ∈ a :: t := hp.symm.subset (List.mem_cons_self b t₂)
          have hamem : a ∈ b :: t₂ := hp.subset (List.mem_cons_self a t)
          have h1 : R a b := by
            rcases List.mem_cons.mp hbmem with hba | hbt
            · exact absurd hba.symm h
            · exact (List.pairwise_cons.mp h₁).1 b hbt
          have h2 : R b a := by
            rcases List.mem_cons.mp hamem with hab' | hat
            · exact absurd hab' h
            · exact (List.pairwise_cons.mp h₂).1 a hat
          exact hanti a (by simp) b hbmem h1 h2
      subst hab
      have hp' : t.Perm t₂ := hp.cons_inv
      have hanti' : ∀ x ∈ t, ∀ y ∈ t, R x y → R y x → x = y := fun x hx y hy =>
        hanti x (List.mem_cons_of_mem a hx) y (List.mem_cons_of_mem a hy)
      exact congrArg (a :: ·) (ih hp' hanti' h₁.of_cons h₂.of_cons)

/-! ## Lemmas about the sort comparator -/

theorem JsNum.sub_eq_finite_zero_iff (x y : JsNum) :
    JsNum.sub x y = .finite 0 ↔ ∃ q, x = .finite q ∧ y = .finite q := by
  cases x <;> cases y <;> simp [JsNum.sub, sub_eq_zero, eq_comm]

theorem strCmpQ_antisymm (s t : String) : strCmpQ t s = - strCmpQ s t := by
  unfold strCmpQ
  rcases lt_trichotomy s t with h | h | h
  · simp [h, not_lt_of_gt h, ne_of_gt h]
  · simp [h, lt_irrefl]
  · simp [h, not_lt_of_gt h]

theorem toSortSign_sub_antisymm (x y : JsNum) :
    toSortSign (JsNum.sub y x) = - toSortSign (JsNum.sub x y) := by
  cases x <;> cases y <;> simp [JsNum.sub, toSortSign]

theorem sortCompareVal_antisymm (sortBy : SortType) (direction : SortDirection)
    (a b : FormattedCountyGDP) :
    sortCompareVal sortBy direction b a = - sortCompareVal sortBy direction a b := by
  unfold sortCompareVal
  cases direction <;> simp only
  · by_cases h : JsNum.sub (keyVal sortBy a) (keyVal sortBy b) = .finite 0
    · obtain ⟨q, ha, hb⟩ := (JsNum.sub_eq_finite_zero_iff _ _).mp h
      have h' : JsNum.sub (keyVal sortBy b) (keyVal sortBy a) = .finite 0 := by
        rw [ha, hb]; simp [JsNum.sub]
      rw [if_pos h, if_pos h', strCmpQ_antisymm]
    · have h' : JsNum.sub (keyVal sortBy b) (keyVal sortBy a) ≠ .finite 0 := by
        intro hc
        obtain ⟨q, hb, ha⟩ := (JsNum.sub_eq_finite_zero_iff _ _).mp hc
        exact h (by rw [ha, hb]; simp [JsNum.sub])
      rw [if_neg h, if_neg h', toSortSign_sub_antisymm]
  · by_cases h : JsNum.sub (keyVal sortBy b) (keyVal sortBy a) = .finite 0
    · obtain ⟨q, hb, ha⟩ := (JsNum.sub_eq_finite_zero_iff _ _).mp h
      have h' : JsNum.sub (keyVal sortBy a) (keyVal sortBy b) = .finite 0 := by
        rw [ha, hb]; simp [JsNum.sub]
      rw [if_pos h, if_pos h', strCmpQ_antisymm]
    · have h' : JsNum.sub (keyVal sortBy a) (keyVal sortBy b) ≠ .finite 0 := by
        intro hc
        obtain ⟨q, ha, hb⟩ := (JsNum.sub_eq_finite_zero_iff _ _).mp hc
        exact h (by rw [ha, hb]; simp [JsNum.sub])
      rw [if_neg h, if_neg h', toSortSign_sub_antisymm]

theorem countyLe_total (sortBy : SortType) (direction : SortDirection)
    (a b : FormattedCountyGDP) :
    countyLe sortBy direction a b = true ∨ countyLe sortBy direction b a = true := by
  unfold countyLe
  rcases le_or_lt (sortCompareVal sortBy direction a b) 0 with h | h
  · exact Or.inl (decide_eq_true h)
  · refine Or.inr (decide_eq_true ?_)
    rw [sortCompareVal_antisymm]
    linarith

theorem JsNum.isFin_iff {v : JsNum} : v.isFin = true ↔ ∃ q, v = .finite q := by
  cases v <;> simp [JsNum.isFin]

theorem strCmpQ_le_zero_iff (s t : String) : strCmpQ s t ≤ 0 ↔ s ≤ t := by
  unfold strCmpQ
  rcases lt_trichotomy s t with h | h | h
  · simp [h, le_of_lt]
  · simp [h, lt_irrefl]
  · simp [not_lt_of_gt h, h, not_le_of_gt h]

theorem countyLe_asc_iff {sortBy : SortType} {a b : FormattedCountyGDP} {qa qb : ℚ}
    (ha : keyVal sortBy a = .finite qa) (hb : keyVal sortBy b = .finite qb) :
    countyLe sortBy .asc a b = true ↔ (qa < qb ∨ (qa = qb ∧ a.code ≤ b.code)) := by
  unfold countyLe sortCompareVal
  rw [ha, hb]
  simp only [JsNum.sub, JsNum.finite.injEq, decide_eq_true_eq]
  by_cases hq : qa = qb
  · subst hq
    simp [strCmpQ_le_zero_iff]
  · have hsub : qa - qb ≠ 0 := sub_ne_zero.mpr hq
    rw [if_neg hsub]
    simp only [toSortSign]
    constructor
    · intro h
      exact Or.inl (lt_of_le_of_ne (by linarith) hq)
    · rintro (h | ⟨h, _⟩)
      · linarith
      · exact absurd h hq

theorem countyLe_desc_iff {sortBy : SortType} {a b : FormattedCountyGDP} {qa qb : ℚ}
    (ha : keyVal sortBy a = .finite qa) (hb : keyVal sortBy b = .finite qb) :
    countyLe sortBy .desc a b = true ↔ (qb < qa ∨ (qa = qb ∧ a.code ≤ b.code)) := by
  unfold countyLe sortCompareVal
  rw [ha, hb]
  simp only [JsNum.sub, JsNum.finite.injEq, decide_eq_true_eq]
  by_cases hq : qa = qb
  · subst hq
    simp [strCmpQ_le_zero_iff]
  · have hsub : qb - qa ≠ 0 := sub_ne_zero.mpr (Ne.symm hq)
    rw [if_neg hsub]
    simp only [toSortSign]
    constructor
    · intro h
      exact Or.inl (lt_of_le_of_ne (by linarith) (Ne.symm hq))
    · rintro (h | ⟨h, _⟩)
      · linarith
      · exact absurd h hq

theorem countyLe_trans_finite (sortBy : SortType) (direction : SortDirection) :
    ∀ x y z : FormattedCountyGDP, (keyVal sortBy x).isFin = true →
      (keyVal sortBy y).isFin = true → (keyVal sortBy z).isFin = true →
      countyLe sortBy direction x y = true → countyLe sortBy direction y z = true →
      countyLe sortBy direction x z = true := by
  intro x y z hx hy hz hxy hyz
  obtain ⟨qx, hqx⟩ := JsNum.isFin_iff.mp hx
  obtain ⟨qy, hqy⟩ := JsNum.isFin_iff.mp hy
  obtain ⟨qz, hqz⟩ := JsNum.isFin_iff.mp hz
  cases direction
  · rw [countyLe_asc_iff hqx hqy] at hxy
    rw [countyLe_asc_iff hqy hqz] at hyz
    rw [countyLe_asc_iff hqx hqz]
    rcases hxy with h1 | ⟨h1, c1⟩ <;> rcases hyz with h2 | ⟨h2, c2⟩
    · exact Or.inl (h1.trans h2)
    · exact Or.inl (h2 ▸ h1)
    · exact Or.inl (h1 ▸ h2)
    · exact Or.inr ⟨h1.trans h2, c1.trans c2⟩
  · rw [countyLe_desc_iff hqx hqy] at hxy
    rw [countyLe_desc_iff hqy hqz] at hyz
    rw [countyLe_desc_iff hqx hqz]
    rcases hxy with h1 | ⟨h1, c1⟩ <;> rcases hyz with h2 | ⟨h2, c2⟩
    · exact Or.inl (h2.trans h1)
    · exact Or.inl (h2 ▸ h1)
    · exact Or.inl (h1 ▸ h2)
    · exact Or.inr ⟨h1.trans h2, c1.trans c2⟩

theorem countyLe_antisymm_finite (sortBy : SortType) (direction : SortDirection)
    {x y : FormattedCountyGDP} {qx qy : ℚ}
    (hqx : keyVal sortBy x = .finite qx) (hqy : keyVal sortBy y = .finite qy)
    (hxy : countyLe sortBy direction x y = true)
    (hyx : countyLe sortBy direction y x = true) :
    qx = qy ∧ x.code = y.code := by
  cases direction
  · rw [countyLe_asc_iff hqx hqy] at hxy
    rw [countyLe_asc_iff hqy hqx] at hyx
    rcases hxy with h1 | ⟨h1, c1⟩ <;> rcases hyx with h2 | ⟨h2, c2⟩
    · exact absurd (h1.trans h2) (lt_irrefl _)
    · exact absurd h1 (h2 ▸ lt_irrefl _)
    · exact absurd h2 (h1 ▸ lt_irrefl _)
    · exact ⟨h1, le_antisymm c1 c2⟩
  · rw [countyLe_desc_iff hqx hqy] at hxy
    rw [countyLe_desc_iff hqy hqx] at hyx
    rcases hxy with h1 | ⟨h1, c1⟩ <;> rcases hyx with h2 | ⟨h2, c2⟩
    · exact absurd (h1.trans h2) (lt_irrefl _)
    · exact absurd h1 (h2 ▸ lt_irrefl _)
    · exact absurd h2 (h1 ▸ lt_irrefl _)
    · exact ⟨h1, le_antisymm c1 c2⟩

/-! ## Growth-rate claims -/

/-- C1: the claim says that for a zero prior-year GDP `calculateGrowthRate`
returns `0` and never a non-finite value, regardless of the current-year
value.  The code's `|| 0` guard only replaces falsy results (`NaN`, `0`):
at `year2023 = 100, year2022 = 0` the division produces `Infinity`, which is
truthy and is returned unchanged, so the guard the claim (and the code's own
sanitizing intent) describes fails; only the `year2023 = 0` case is caught. -/
theorem calculateGrowthRate_zero_prior_unguarded :
    calculateGrowthRate ⟨100, 0⟩ = JsNum.inf ∧
    (calculateGrowthRate ⟨100, 0⟩).isFin = false ∧
    calculateGrowthRate ⟨0, 0⟩ = .finite 0 := by
  refine ⟨?_, ?_, ?_⟩ <;> with_unfolding_all decide

/-- C8: for every GDP pair with a strictly positive prior-year value,
`calculateGrowthRate` returns exactly `((year2023 − year2022) / year2022) × 100`
(the `|| 0` guard is the identity there: when the formula's value is `0` it
returns the same `0`). -/
theorem calculateGrowthRate_formula (g : Gdp) (h : 0 < g.year2022) :
    calculateGrowthRate g = .finite ((g.year2023 - g.year2022) / g.year2022 * 100) := by
  have hne : g.year2022 ≠ 0 := ne_of_gt h
  unfold calculateGrowthRate
  simp only [JsNum.sub, JsNum.div, if_neg hne, JsNum.mul, JsNum.orZero, JsNum.truthy]
  by_cases hz : (g.year2023 - g.year2022) / g.year2022 * 100 = 0
  · simp [hz]
  · simp [hz]

/-- Witness for C8 at `year2023 = 100, year2022 = 80`: growth rate `25`. -/
theorem calculateGrowthRate_formula_witness :
    0 < ((80 : ℚ)) ∧ calculateGrowthRate ⟨100, 80⟩ = .finite 25 := by
  refine ⟨by norm_num, ?_⟩
  rw [calculateGrowthRate_formula ⟨100, 80⟩ (by norm_num)]
  with_unfolding_all decide

/-! ## Aggregation claims -/

/-- C2 (counterexample): `getStatistics` does not apply the zero-prior-year
rule to `overallGrowthRate`: on a single county with `year2023 = 5`,
`year2022 = 0` the 2022 sum is zero and the result is `Infinity`, a
non-finite value, not `0`. -/
theorem getStatistics_overall_zero_sum_cex :
    totalGDP2022Of [sampleCounty "z" 5 0] = 0 ∧
    (getStatistics [sampleCounty "z" 5 0]).overallGrowthRate = JsNum.inf ∧
    JsNum.inf.isFin = false := by
  refine ⟨?_, ?_, ?_⟩ <;> with_unfolding_all decide

/-- C2 (amended): `overallGrowthRate` is
`((totalGDP2023 − totalGDP2022) / totalGDP2022) × 100` computed from the two
sums, with NO zero-prior-year guard: when the 2022 sum is nonzero the
formula's exact value is returned, and when the 2022 sum is zero the result
is a non-finite value (`NaN` or `±Infinity`). -/
theorem getStatistics_overall_unguarded (data : List FormattedCountyGDP) :
    (totalGDP2022Of data ≠ 0 →
      (getStatistics data).overallGrowthRate =
        .finite ((totalGDP2023Of data - totalGDP2022Of data) / totalGDP2022Of data * 100)) ∧
    (totalGDP2022Of data = 0 →
      ((getStatistics data).overallGrowthRate).isFin = false) := by
  constructor
  · intro h
    simp [getStatistics, JsNum.sub, JsNum.div, JsNum.mul, h]
  · intro h
    rcases lt_trichotomy (totalGDP2023Of data) 0 with h3 | h3 | h3 <;>
      simp [getStatistics, JsNum.sub, JsNum.div, JsNum.mul, JsNum.isFin, h, h3,
        not_lt_of_gt, sub_eq_zero, ne_of_lt, ne_of_gt]

/-- Witness for C2 (amended): on a county with GDP 100/80 the overall growth
rate is exactly `25`; on the empty input the 2022 sum is zero and the result
is non-finite. -/
theorem getStatistics_overall_unguarded_witness :
    (totalGDP2022Of [sampleCounty "w" 100 80] ≠ 0 ∧
      (getStatistics [sampleCounty "w" 100 80]).overallGrowthRate = .finite 25) ∧
    (totalGDP2022Of ([] : List FormattedCountyGDP) = 0 ∧
      ((getStatistics ([] : List FormattedCountyGDP)).overallGrowthRate).isFin = false) := by
  have h1 : totalGDP2022Of [sampleCounty "w" 100 80] ≠ 0 := by with_unfolding_all decide
  have h2 : totalGDP2022Of ([] : List FormattedCountyGDP) = 0 := by with_unfolding_all decide
  refine ⟨⟨h1, ?_⟩, ⟨h2, (getStatistics_overall_unguarded []).2 h2⟩⟩
  rw [(getStatistics_overall_unguarded [sampleCounty "w" 100 80]).1 h1]
  with_unfolding_all decide

/-- C3 (counterexample): `getStatistics` on the empty sequence computes
`avgPerCapitaGDP` as `0 / 0 = NaN`, a non-finite value — not a defined
finite value as the claim requires. -/
theorem getStatistics_empty_avg_cex :
    (getStatistics []).avgPerCapitaGDP = JsNum.nan ∧ JsNum.nan.isFin = false := by
  refine ⟨?_, ?_⟩ <;> with_unfolding_all decide

/-- C3 (amended): `getStatistics` applied to the empty sequence does return
a result record (no crash): both GDP sums and all three counts are `0`, but
the two division-derived fields `overallGrowthRate` and `avgPerCapitaGDP`
are silently `NaN` (`0 / 0`), not defined finite values. -/
theorem getStatistics_empty :
    getStatistics [] =
      { totalGDP2023 := 0, totalGDP2022 := 0, overallGrowthRate := JsNum.nan,
        avgPerCapitaGDP := JsNum.nan, positiveGrowthCount := 0,
        negativeGrowthCount := 0, totalCount := 0 } := by
  with_unfolding_all decide

/-! ## Sorting claims -/

/-- C5: for every input, sort key and direction, `sortCounties` returns a
permutation of its input: the output is `Perm`-equivalent to the input (so
no element is added, removed or modified), has the same length, and carries
the same multiset of `code` values. -/
theorem sortCounties_permutation (data : List FormattedCountyGDP)
    (sortBy : SortType) (direction : SortDirection) :
    (sortCounties data sortBy direction).Perm data ∧
    (sortCounties data sortBy direction).length = data.length ∧
    ((sortCounties data sortBy direction).map (fun c => c.code)).Perm
      (data.map (fun c => c.code)) := by
  have h := stableSort_perm (countyLe sortBy direction) data
  exact ⟨h, h.length_eq, h.map _⟩

/-- C4 (counterexample): two formatted counties whose 2022 GDP is zero both
get growth rate `Infinity`; sorting them by growth rate (ascending), with
the county coded `"b"` first in the input, leaves them in input order
`["b", "a"]`: the comparator computes `Infinity - Infinity = NaN`, which is
not `=== 0`, so the `code` tie-break is skipped and the engine treats the
`NaN` as `0` — the two adjacent elements compare equal on the sort field but
are not in ascending `code` order. -/
theorem sortCounties_tiebreak_cex :
    (sortCounties [cexB, cexA] SortType.growthRate SortDirection.asc).map
        (fun c => c.code) = ["b", "a"] ∧
    (∀ c ∈ sortCounties [cexB, cexA] SortType.growthRate SortDirection.asc,
        keyVal SortType.growthRate c = JsNum.inf) ∧
    ¬ (("b" : String) ≤ "a") := by
  refine ⟨?_, ?_, ?_⟩ <;> with_unfolding_all decide

/-- C4 (amended): whenever all the chosen field's values in the input are
finite, the output of `sortCounties` is ordered by that field in the chosen
direction and any two adjacent elements equal on the field are in ascending
lexicographic `code` order.  (When two elements are both `Infinity` or both
`-Infinity` on the growth-rate key, the comparator's `NaN` bypasses the
tie-break and they stay in input order instead.) -/
theorem sortCounties_sorted (data : List FormattedCountyGDP)
    (sortBy : SortType) (direction : SortDirection)
    (hfin : ∀ c ∈ data, (keyVal sortBy c).isFin = true) :
    List.Chain' (fieldOrdered sortBy direction) (sortCounties data sortBy direction) := by
  have hch : List.Chain' (fun x y => countyLe sortBy direction x y = true)
      (sortCounties data sortBy direction) :=
    chain'_stableSort (countyLe_total sortBy direction) data
  refine chain'_imp_mem hch ?_
  intro x hx y hy hxy
  have hperm := stableSort_perm (countyLe sortBy direction) data
  have hxd : x ∈ data := hperm.subset hx
  have hyd : y ∈ data := hperm.subset hy
  obtain ⟨qx, hqx⟩ := JsNum.isFin_iff.mp (hfin x hxd)
  obtain ⟨qy, hqy⟩ := JsNum.isFin_iff.mp (hfin y hyd)
  cases direction
  · rw [countyLe_asc_iff hqx hqy] at hxy
    constructor
    · show JsNum.leB (keyVal sortBy x) (keyVal sortBy y) = true
      rw [hqx, hqy]
      simp only [JsNum.leB, JsNum.ltB, Bool.not_eq_true', decide_eq_false_iff_not, not_lt]
      rcases hxy with h | ⟨h, _⟩
      · exact le_of_lt h
      · exact le_of_eq h
    · intro heq
      rw [hqx, hqy] at heq
      rcases hxy with h | ⟨_, hc⟩
      · exact absurd (JsNum.finite.inj heq) (ne_of_lt h)
      · exact hc
  · rw [countyLe_desc_iff hqx hqy] at hxy
    constructor
    · show JsNum.leB (keyVal sortBy y) (keyVal sortBy x) = true
      rw [hqx, hqy]
      simp only [JsNum.leB, JsNum.ltB, Bool.not_eq_true', decide_eq_false_iff_not, not_lt]
      rcases hxy with h | ⟨h, _⟩
      · exact le_of_lt h
      · exact le_of_eq h.symm
    · intro heq
      rw [hqx, hqy] at heq
      rcases hxy with h | ⟨_, hc⟩
      · exact absurd (JsNum.finite.inj heq).symm (ne_of_lt h)
      · exact hc

/-- Witness for C4 (amended) on two counties with finite 2023 GDP values,
descending by 2023 GDP. -/
theorem sortCounties_sorted_witness :
    (∀ c ∈ [sampleCounty "a" 100 80, sampleCounty "b" 50 50],
        (keyVal SortType.gdp2023 c).isFin = true) ∧
    List.Chain' (fieldOrdered SortType.gdp2023 SortDirection.desc)
      (sortCounties [sampleCounty "a" 100 80, sampleCounty "b" 50 50]
        SortType.gdp2023 SortDirection.desc) := by
  have h : ∀ c ∈ [sampleCounty "a" 100 80, sampleCounty "b" 50 50],
      (keyVal SortType.gdp2023 c).isFin = true := by
    with_unfolding_all decide
  exact ⟨h, sortCounties_sorted _ _ _ h⟩

/-- C6 (counterexample): the two `Infinity`-growth counties (distinct codes
`"a"`, `"b"`) tie with a `NaN` comparator result, so the mandated stable
sort keeps each input order: the two permuted inputs produce different
output sequences. -/
theorem sortCounties_deterministic_cex :
    ([cexB, cexA] : List FormattedCountyGDP).Perm [cexA, cexB] ∧
    cexA.code ≠ cexB.code ∧
    (sortCounties [cexB, cexA] SortType.growthRate SortDirection.asc).map
        (fun c => c.code) = ["b", "a"] ∧
    (sortCounties [cexA, cexB] SortType.growthRate SortDirection.asc).map
        (fun c => c.code) = ["a", "b"] ∧
    sortCounties [cexB, cexA] SortType.growthRate SortDirection.asc ≠
      sortCounties [cexA, cexB] SortType.growthRate SortDirection.asc := by
  have hm1 : (sortCounties [cexB, cexA] SortType.growthRate SortDirection.asc).map
      (fun c => c.code) = ["b", "a"] := by with_unfolding_all decide
  have hm2 : (sortCounties [cexA, cexB] SortType.growthRate SortDirection.asc).map
      (fun c => c.code) = ["a", "b"] := by with_unfolding_all decide
  refine ⟨List.Perm.swap cexA cexB [], by with_unfolding_all decide, hm1, hm2, ?_⟩
  intro h
  have := congrArg (List.map (fun c => c.code)) h
  rw [hm1, hm2] at this
  simp at this

/-- C6 (amended): `sortCounties` is deterministic on the input multiset
provided the chosen field's values are all finite: any two inputs that are
permutations of each other with pairwise distinct codes sort to identical
output sequences.  (Without finiteness the counterexample above applies:
elements tied at `Infinity` keep their respective input orders.) -/
theorem sortCounties_deterministic (sortBy : SortType) (direction : SortDirection)
    (l₁ l₂ : List FormattedCountyGDP) (hperm : l₁.Perm l₂)
    (hcodes : l₁.Pairwise fun a b => a.code ≠ b.code)
    (hfin : ∀ c ∈ l₁, (keyVal sortBy c).isFin = true) :
    sortCounties l₁ sortBy direction = sortCounties l₂ sortBy direction := by
  have hfin₂ : ∀ c ∈ l₂, (keyVal sortBy c).isFin = true := fun c hc =>
    hfin c (hperm.symm.subset hc)
  have hout : (sortCounties l₁ sortBy direction).Perm (sortCounties l₂ sortBy direction) :=
    (stableSort_perm _ l₁).trans (hperm.trans (stableSort_perm _ l₂).symm)
  have hmem₁ : ∀ c ∈ sortCounties l₁ sortBy direction, c ∈ l₁ := fun c hc =>
    (stableSort_perm _ l₁).subset hc
  have hmem₂ : ∀ c ∈ sortCounties l₂ sortBy direction, c ∈ l₂ := fun c hc =>
    (stableSort_perm _ l₂).subset hc
  refine eq_of_perm_of_pairwise
    (R := fun x y => countyLe sortBy direction x y = true) hout ?_ ?_ ?_
  · intro x hx y hy hxy hyx
    have hx₁ : x ∈ l₁ := hmem₁ x hx
    have hy₁ : y ∈ l₁ := hmem₁ y hy
    obtain ⟨qx, hqx⟩ := JsNum.isFin_iff.mp (hfin x hx₁)
    obtain ⟨qy, hqy⟩ := JsNum.isFin_iff.mp (hfin y hy₁)
    have hcode := (countyLe_antisymm_finite sortBy direction hqx hqy hxy hyx).2
    by_contra hne
    exact (List.Pairwise.forall (fun a b h => (h ∘ Eq.symm)) hcodes hx₁ hy₁ hne) hcode
  · exact pairwise_of_chain' (countyLe_trans_finite sortBy direction)
      (fun c hc => hfin c (hmem₁ c hc)) (chain'_stableSort (countyLe_total _ _) l₁)
  · exact pairwise_of_chain' (countyLe_trans_finite sortBy direction)
      (fun c hc => hfin₂ c (hmem₂ c hc)) (chain'_stableSort (countyLe_total _ _) l₂)

/-- Witness for C6 (amended): two permuted inputs with distinct codes and
finite 2023 GDP values sort to the same sequence. -/
theorem sortCounties_deterministic_witness :
    ([sampleCounty "a" 100 80, sampleCounty "b" 50 50] :
        List FormattedCountyGDP).Perm [sampleCounty "b" 50 50, sampleCounty "a" 100 80] ∧
    sortCounties [sampleCounty "a" 100 80, sampleCounty "b" 50 50]
        SortType.gdp2023 SortDirection.desc =
      sortCounties [sampleCounty "b" 50 50, sampleCounty "a" 100 80]
        SortType.gdp2023 SortDirection.desc := by
  have hp : ([sampleCounty "a" 100 80, sampleCounty "b" 50 50] :
      List FormattedCountyGDP).Perm [sampleCounty "b" 50 50, sampleCounty "a" 100 80] :=
    List.Perm.swap (sampleCounty "b" 50 50) (sampleCounty "a" 100 80) []
  refine ⟨hp, sortCounties_deterministic SortType.gdp2023 SortDirection.desc _ _ hp ?_ ?_⟩
  · with_unfolding_all decide
  · with_unfolding_all decide

/-! ## Filtering claims -/

theorem decide_lt_eq_not_decide_le (a b : ℚ) : decide (a < b) = !decide (b ≤ a) := by
  by_cases h : b ≤ a
  · simp [h, not_lt.mpr h]
  · simp [h, not_le.mp h]

/-- C7 (counterexample): a filter spec whose `prefecture` is supplied as the
empty string is claimed to impose prefecture equality, but the code's
truthiness test (`options.prefecture && …`) skips the falsy empty string:
a county with non-empty prefecture `"p"` is kept, while the claimed
conjunction-of-supplied-predicates semantics would reject it. -/
theorem filterCounties_empty_string_cex :
    filterCounties [sampleCounty "x" 100 80] { prefecture := some "" } =
      [sampleCounty "x" 100 80] ∧
    (sampleCounty "x" 100 80).prefecture ≠ "" ∧
    List.filter (claimMatchesFilter { prefecture := some "" })
      [sampleCounty "x" 100 80] = [] ∧
    filterCounties [sampleCounty "x" 100 80] { prefecture := some "" } ≠
      List.filter (claimMatchesFilter { prefecture := some "" })
        [sampleCounty "x" 100 80] := by
  have h1 : filterCounties [sampleCounty "x" 100 80] { prefecture := some "" } =
      [sampleCounty "x" 100 80] := by with_unfolding_all decide
  have h3 : List.filter (claimMatchesFilter { prefecture := some "" })
      [sampleCounty "x" 100 80] = [] := by with_unfolding_all decide
  refine ⟨h1, by with_unfolding_all decide, h3, ?_⟩
  rw [h1, h3]
  simp

/-- C7 (amended): provided no element's growth rate is `NaN` (true of every
county `formatCountyData` produces), `filterCounties` returns exactly the
subsequence of elements satisfying the conjunction of the supplied
predicates — where a supplied empty-string prefecture imposes no constraint
(it is treated as unset) and a supplied non-empty prefecture means equality;
order is preserved (the output is a sublist of the input) and the empty
filter spec is the identity. -/
theorem filterCounties_spec (data : List FormattedCountyGDP) (options : FilterOptions)
    (h : ∀ c ∈ data, c.growthRate ≠ JsNum.nan) :
    filterCounties data options = data.filter (matchesFilterSpec options) ∧
    (filterCounties data options).Sublist data ∧
    filterCounties data {} = data := by
  refine ⟨?_, ?_, ?_⟩
  · unfold filterCounties
    apply List.filter_congr
    intro c hc
    have hgr := h c hc
    cases options with
    | mk pref gmin gmax gdpm =>
      unfold prefectureBlocks growthRateMinBlocks growthRateMaxBlocks gdpMinBlocks
        matchesFilterSpec
      cases pref <;> cases gmin <;> cases gmax <;> cases gdpm <;>
        cases hg : c.growthRate <;>
        simp_all [JsNum.ltB, JsNum.leB, not_lt, decide_lt_eq_not_decide_le]
  · exact List.filter_sublist data
  · simp [filterCounties, prefectureBlocks, growthRateMinBlocks,
      growthRateMaxBlocks, gdpMinBlocks]

/-- Witness for C7 (amended) on one county and a growth-rate lower bound. -/
theorem filterCounties_spec_witness :
    (∀ c ∈ [sampleCounty "x" 100 80], c.growthRate ≠ JsNum.nan) ∧
    filterCounties [sampleCounty "x" 100 80] { growthRateMin := some 0 } =
      List.filter (matchesFilterSpec { growthRateMin := some 0 })
        [sampleCounty "x" 100 80] ∧
    filterCounties [sampleCounty "x" 100 80] {} = [sampleCounty "x" 100 80] := by
  have h : ∀ c ∈ [sampleCounty "x" 100 80], c.growthRate ≠ JsNum.nan := by
    with_unfolding_all decide
  have hs := filterCounties_spec [sampleCounty "x" 100 80] { growthRateMin := some 0 } h
  exact ⟨h, hs.1, hs.2.2⟩

/-- C10: supplying `prefecture` as the empty string is the same as leaving
it unset: JavaScript's truthiness test on `options.prefecture` treats `""`
as falsy, so no prefecture constraint is imposed. -/
theorem filterCounties_empty_string_prefecture (data : List FormattedCountyGDP)
    (gmin gmax gdpm : Option ℚ) :
    filterCounties data ⟨some "", gmin, gmax, gdpm⟩ =
      filterCounties data ⟨none, gmin, gmax, gdpm⟩ := by
  unfold filterCounties
  apply List.filter_congr
  intro c _
  simp [prefectureBlocks, growthRateMinBlocks, growthRateMaxBlocks, gdpMinBlocks]

/-! ## Formatting claims -/

/-- C9 (counterexample): for a county whose prefecture code is absent from
the mapping, the template string stringifies the `undefined` lookup: the
name segment of `regionRank` is the literal text `"undefined"` (an
undefined-value concatenation), not an empty or placeholder segment. -/
theorem formatCountyData_missing_cex :
    (formatCountyData (fun _ => none) rawMissing).regionRank =
      "undefined" ++ toString rawMissing.rank ∧
    (formatCountyData (fun _ => none) rawMissing).regionRank ≠
      toString rawMissing.rank := by
  refine ⟨?_, ?_⟩ <;> with_unfolding_all decide

/-- C9 (amended): `formatCountyData` is total — for a county whose
prefecture code is absent from the mapping it still produces a record with
the underlying county data intact (no crash, the formatting pass
continues), but the prefecture-name segment of `regionRank` is the literal
string `"undefined"` (JavaScript's rendering of the missing lookup), not an
empty or placeholder name. -/
theorem formatCountyData_total_missing (pmap : String → Option String)
    (c : CountyGDP) (h : pmap c.prefecture = none) :
    (formatCountyData pmap c).toCountyGDP = c ∧
    (formatCountyData pmap c).regionRank = "undefined" ++ toString c.rank := by
  constructor
  · rfl
  · simp [formatCountyData, jsTemplateLookup, h]

/-- Witness for C9 (amended) at the fixture county with absent prefecture
code `"zz"` and rank `3`. -/
theorem formatCountyData_total_missing_witness :
    ((fun _ => (none : Option String)) rawMissing.prefecture = none) ∧
    (formatCountyData (fun _ => none) rawMissing).toCountyGDP = rawMissing ∧
    (formatCountyData (fun _ => none) rawMissing).regionRank = "undefined3" := by
  have h := formatCountyData_total_missing (fun _ => none) rawMissing rfl
  refine ⟨rfl, h.1, ?_⟩
  rw [h.2]
  with_unfolding_all decide
